import Mathlib

/-!
Verification of the `ssdjwtauth` token-verification middleware.

The development shallowly embeds `ssdjwtauth/verifier.go`.  Go maps of keys
are embedded as association lists (Go map keys are unique; theorems that need
uniqueness carry a `Nodup` hypothesis).  The external collaborators that the
library delegates to — the PEM/RSA key parser, the structural token decode and
the cryptographic signature check from `github.com/golang-jwt/jwt/v5` — are not
part of this repository's sources; they are either taken as parameters
(`parse`, `parseTok`, the `sigValid` field of a token) or modelled from the
design document, as marked on each definition.
-/

set_option autoImplicit false

namespace SsdJwtAuth

/-- An opaque RSA public key value, as produced by the external PEM parser
(`jwt.ParseRSAPublicKeyFromPEM`).  Only its identity matters to this library. -/
structure PubKey where
  val : Nat
deriving DecidableEq, Repr, Inhabited

/-- PEM key material bytes (`[]byte` in Go), kept abstract as a string. -/
abbrev Bytes := String

/-- A JSON header value, as found under `"kid"` in a token header
(`map[string]interface{}` in Go).  Only the string / non-string distinction
matters to `KeyFunc`. -/
inductive HVal where
  | str (s : String)
  | num (n : Int)
  | boolean (b : Bool)
deriving DecidableEq, Repr

/-- Error kinds produced on the verification path.  The Go code returns
`error` values with distinct messages; the design document classifies them
into these kinds (§7). -/
inductive VError where
  | malformedToken
  | algorithmMismatch
  | missingKid
  | kidNotString
  | noSuchKey (kid : String)
  | signatureInvalid
  | claimsInvalid
deriving DecidableEq, Repr

/-- Association-list lookup; embeds a read `m[k]` of a Go `map[string]V`. -/
def lookupAssoc {α : Type} : List (String × α) → String → Option α
  | [], _ => none
  | (n, v) :: rest, k => if n = k then some v else lookupAssoc rest k

/-- Modelled from the spec: the parsed token payload.  The concrete
`SsdJwtClaims` struct is declared in a source file of this repository that is
not among the provided sources; the design document (§3) lists issuer,
audience, subject, issued-at and expiration, plus domain-specific fields that
no claim here depends on.  Times are Unix seconds. -/
structure Claims where
  exp : Option Int
  iat : Option Int
  iss : Option String
  sub : Option String
  aud : List String
deriving DecidableEq, Repr

/-- A decoded token envelope: the header fields the verifier inspects, the
payload claims, and — in place of the raw signature bytes — the abstract
predicate `sigValid k a`: "the token's signature is cryptographically valid
under public key `k` and algorithm `a`", supplied by the external crypto
collaborator (§6). -/
structure Token where
  alg : String
  kid : Option HVal
  claims : Claims
  sigValid : PubKey → String → Bool

/-- The fixed verification policy.  Embeds the `jwt.ParserOption` list: leeway,
expected audience, expiration required, issued-at checked, expected issuer,
valid signing methods, and the optional injected time source (`WithTimeFunc`,
modelled by the instant it returns). -/
structure ParseConfig where
  leeway : Int
  audience : String
  requireExp : Bool
  requireIat : Bool
  issuer : String
  validMethods : List String
  timeFunc : Option Int
deriving DecidableEq, Repr

/-- Embeds `defaultParseOptions` of `verifier.go`: leeway `5 * time.Minute`
(300 seconds), audience `ssdTokenAudience`, expiration required, issued-at
checked, issuer `ssdTokenIssuer`, valid methods `[PS256]`.  The audience and
issuer constants are declared outside the provided sources and are
deployment-specific (§6), so they are parameters here. -/
def defaultParseOptions (aud iss : String) : ParseConfig :=
  { leeway := 5 * 60
    audience := aud
    requireExp := true
    requireIat := true
    issuer := iss
    validMethods := ["PS256"]
    timeFunc := none }

/-- The verifier state: the key map (`Keys`) and the parse options built at
construction. -/
structure Verifier where
  keys : List (String × PubKey)
  parseOptions : ParseConfig

/-- The error message `parseKeys` produces for a PEM entry the external parser
rejects.  Go appends the parser's own error text after the kid
(`"unable to parse pem for keyID %s: %v"`); that suffix is abstracted away
together with the parser. -/
def pemErrMsg (name : String) : String :=
  "unable to parse pem for keyID " ++ name

/-- Embeds `parseKeys` of `verifier.go`: parse every PEM entry with the
external parser `parse`; on the first failing entry, return the error naming
that entry's kid (discarding everything); otherwise return the parsed map. -/
def parseKeys (parse : Bytes → Option PubKey) :
    List (String × Bytes) → Except String (List (String × PubKey))
  | [] => .ok []
  | (name, pemstring) :: rest =>
    match parse pemstring with
    | none => .error (pemErrMsg name)
    | some rk =>
      match parseKeys parse rest with
      | .error e => .error e
      | .ok keys => .ok ((name, rk) :: keys)

/-- Embeds `NewVerifier` of `verifier.go`: parse the keys (failing the whole
construction on any bad entry), copy the default parse options, and append the
caller's time source when one is given. -/
def newVerifier (parse : Bytes → Option PubKey) (aud iss : String)
    (pemkeys : List (String × Bytes)) (timeFunc : Option Int) :
    Except String Verifier :=
  match parseKeys parse pemkeys with
  | .error e => .error e
  | .ok keys =>
    .ok { keys := keys
          parseOptions := { defaultParseOptions aud iss with timeFunc := timeFunc } }

/-- Embeds `SetKeys` of `verifier.go` in state-passing style: the result is the
verifier state after the call together with the returned error, if any.  On a
parse error the method returns before the assignment `v.Keys = keys`, so the
old state is returned unchanged. -/
def setKeys (parse : Bytes → Option PubKey) (v : Verifier)
    (pemkeys : List (String × Bytes)) : Verifier × Option String :=
  match parseKeys parse pemkeys with
  | .error e => (v, some e)
  | .ok keys => ({ v with keys := keys }, none)

/-- Embeds the closure returned by `KeyFunc` of `verifier.go`, applied to the
token's header `kid` entry: missing entry, non-string entry and unknown kid
each produce their own error. -/
def keyFunc (keys : List (String × PubKey)) (kidEntry : Option HVal) :
    Except VError PubKey :=
  match kidEntry with
  | none => .error .missingKid
  | some (.str kid) =>
    match lookupAssoc keys kid with
    | none => .error (.noSuchKey kid)
    | some key => .ok key
  | some _ => .error .kidNotString

/-- The key map `parseKeys` produces from an all-well-formed input: each entry
parsed by the external parser.  (`getD default` is only ever reached on
well-formed entries, where `parse` returns `some`.) -/
def keysOf (parse : Bytes → Option PubKey) (pemkeys : List (String × Bytes)) :
    List (String × PubKey) :=
  pemkeys.map (fun p => (p.1, (parse p.2).getD default))

/-- Modelled from the spec: the claim-validation step of the external
`jwt/v5` parser (§4.2 step 6), configured by the options of `verifier.go`:
the expiration claim must be present and, compared to "now" minus leeway, must
not have passed; the issued-at claim must be present and not lie in the future
beyond leeway; the issuer must equal the configured issuer; the audience must
contain the configured audience. -/
def validateClaims (cfg : ParseConfig) (now : Int) (c : Claims) : Bool :=
  (match c.exp with
   | none => !cfg.requireExp
   | some e => decide (now - cfg.leeway < e)) &&
  (!cfg.requireIat ||
   match c.iat with
   | none => false
   | some i => decide (i ≤ now + cfg.leeway)) &&
  decide (c.iss = some cfg.issuer) &&
  c.aud.contains cfg.audience

/-- Modelled from the spec: the verification pipeline of the external
`jwt.ParseWithClaims` on an already-decoded envelope (§4.2 steps 2-7), with
the key resolution step being this repository's `KeyFunc`: reject if the
declared algorithm is not among the configured valid methods; resolve the key
by the header kid; check the cryptographic signature; validate the claims
against policy; on success return the parsed claims. -/
def verifyParsed (keys : List (String × PubKey)) (cfg : ParseConfig)
    (now : Int) (tok : Token) : Except VError Claims :=
  if !(cfg.validMethods.contains tok.alg) then .error .algorithmMismatch
  else
    match keyFunc keys tok.kid with
    | .error e => .error e
    | .ok key =>
      if tok.sigValid key tok.alg then
        if validateClaims cfg now tok.claims then .ok tok.claims
        else .error .claimsInvalid
      else .error .signatureInvalid

/-- Embeds `VerifyToken` of `verifier.go`.  The structural decode of the token
string is the external collaborator's; it is the parameter `parseTok`, with
`none` for a string that is not a well-formed envelope (§7
`MalformedTokenError`, which includes the empty string).  "Now" is the
verifier's injected time source when one was given, else the system clock
`sysNow`. -/
def verifyToken (parseTok : String → Option Token) (sysNow : Int)
    (v : Verifier) (tokenString : String) : Except VError Claims :=
  match parseTok tokenString with
  | none => .error .malformedToken
  | some tok => verifyParsed v.keys v.parseOptions (v.parseOptions.timeFunc.getD sysNow) tok

/-! ### Header extraction -/

/-- Embeds Go `strings.Split` for a non-empty separator (the call site only
ever passes `"Bearer "`): cut the list at every leftmost, non-overlapping
occurrence of `sep`, accumulating the current piece in `acc` (reversed). -/
def splitAux (sep : List Char) (acc : List Char) : List Char → List (List Char)
  | [] => [acc.reverse]
  | c :: rest =>
    if sep.isPrefixOf (c :: rest) then
      acc.reverse :: splitAux sep [] (rest.drop (sep.length - 1))
    else
      splitAux sep (c :: acc) rest
termination_by l => l.length
decreasing_by
  · simp only [List.length_drop, List.length_cons]
    omega
  · simp only [List.length_cons]
    omega

/-- Go `strings.Split s sep`, on strings, for non-empty `sep`. -/
def goSplit (s sep : String) : List String :=
  (splitAux sep.data [] s.data).map (fun l => String.mk l)

/-- `hasMatch sep l` is true when `sep` occurs as a contiguous sublist of `l`
(for non-empty `sep`). -/
def hasMatch (sep : List Char) : List Char → Bool
  | [] => false
  | c :: rest => sep.isPrefixOf (c :: rest) || hasMatch sep rest

/-- `pat` occurs as a substring of `s` (for non-empty `pat`). -/
def containsSubstr (s pat : String) : Bool :=
  hasMatch pat.data s.data

/-! ### Request-scoped context -/

/-- The private context keys of `verifier.go` (`ssdContextKeyType` values 0
and 1), together with any key a downstream consumer might use, which — being
of a different Go type — can never equal the private ones. -/
inductive CtxKey where
  | ssdContextKey
  | ssdTokenContextKey
  | external (label : String)
deriving DecidableEq, Repr

/-- A value stored in a context (`interface{}` in Go): the two kinds this
library stores, plus anything else. -/
inductive CtxVal where
  | claimsVal (c : Claims)
  | strVal (s : String)
  | otherVal (n : Nat)
deriving DecidableEq, Repr

/-- A Go `context.Context` as the chain of `WithValue` wrappers, most recent
first. -/
abbrev Ctx := List (CtxKey × CtxVal)

/-- Embeds `context.WithValue`. -/
def withValue (ctx : Ctx) (k : CtxKey) (v : CtxVal) : Ctx := (k, v) :: ctx

/-- Embeds `ctx.Value(key)`: the most recently attached value for the key. -/
def ctxValue : Ctx → CtxKey → Option CtxVal
  | [], _ => none
  | (k, v) :: rest, key => if k = key then some v else ctxValue rest key

/-- Embeds `contextWithToken` of `verifier.go`: attach the claims under
`ssdContextKey`, then the raw token string under `ssdTokenContextKey`. -/
def contextWithToken (ctx : Ctx) (claims : Claims) (token : String) : Ctx :=
  withValue (withValue ctx .ssdContextKey (.claimsVal claims))
    .ssdTokenContextKey (.strVal token)

/-- Embeds `SSDClaimsFromContext` of `verifier.go`: look up `ssdContextKey`
and type-assert to claims; `none` models the `(nil, false)` result. -/
def SSDClaimsFromContext (ctx : Ctx) : Option Claims :=
  match ctxValue ctx .ssdContextKey with
  | some (.claimsVal c) => some c
  | _ => none

/-- Embeds `SSDTokenFromContext` of `verifier.go`: look up
`ssdTokenContextKey` and type-assert to string. -/
def SSDTokenFromContext (ctx : Ctx) : Option String :=
  match ctxValue ctx .ssdTokenContextKey with
  | some (.strVal s) => some s
  | _ => none

/-! ### The HTTP middleware -/

/-- The parts of an `*http.Request` this library reads and writes: the two
headers (absent = `none`; `http.Header.Get` returns `""` for an absent
header) and the request context. -/
structure Request where
  authorization : Option String
  xOpsMxAuth : Option String
  ctx : Ctx
deriving DecidableEq, Repr

/-- Embeds `http.Header.Get`. -/
def headerGet (h : Option String) : String := h.getD ""

/-- Embeds `tokenFromHeaders` of `verifier.go`: read `Authorization`, fall
back to `X-OpsMx-Auth` when it is empty, return `""` when both are, else
split the value on `"Bearer "` and take element 1.  The `Option` records
definedness: `none` is the out-of-bounds index access `splitToken[1]`, on
which Go panics. -/
def tokenFromHeaders (r : Request) : Option String :=
  let auth := headerGet r.authorization
  let auth2 := if auth = "" then headerGet r.xOpsMxAuth else auth
  if auth2 = "" then some ""
  else (goSplit auth2 "Bearer ")[1]?

/-- What the middleware writes to the `http.ResponseWriter`. -/
structure Response where
  status : Nat
  body : String
deriving DecidableEq, Repr

/-- The observable outcome of one middleware invocation: a runtime panic (out
of bounds in `tokenFromHeaders`), a rejection writing a response and not
calling `next`, or forwarding the enriched request to `next`. -/
inductive MWResult where
  | panicked
  | reject (resp : Response)
  | forward (r : Request)
deriving DecidableEq, Repr

/-- Embeds the handler returned by `MiddlewareFunc` of `verifier.go`: extract
the token string, verify it; on error write status 401
(`http.StatusUnauthorized`) with body `"Unauthorized"` and return; on success
forward the request with the enriched context to the next handler. -/
def middlewareFunc (parseTok : String → Option Token) (sysNow : Int)
    (v : Verifier) (r : Request) : MWResult :=
  match tokenFromHeaders r with
  | none => .panicked
  | some tokenStr =>
    match verifyToken parseTok sysNow v tokenStr with
    | .error _ => .reject { status := 401, body := "Unauthorized" }
    | .ok claims => .forward { r with ctx := contextWithToken r.ctx claims tokenStr }

/-! ## Helper lemmas -/

lemma isPrefixOf_append_self (l t : List Char) : l.isPrefixOf (l ++ t) = true := by
  induction l with
  | nil => simp [List.isPrefixOf]
  | cons a as ih => simp [List.isPrefixOf, ih]

lemma splitAux_of_not_hasMatch (sep : List Char) (t : List Char) :
    ∀ acc, hasMatch sep t = false → splitAux sep acc t = [acc.reverse ++ t] := by
  induction t with
  | nil => intro acc _; simp [splitAux]
  | cons c rest ih =>
    intro acc h
    simp only [hasMatch, Bool.or_eq_false_iff] at h
    simp [splitAux, h.1, ih _ h.2]

lemma splitAux_append_sep (c0 : Char) (s0 : List Char) (t acc : List Char) :
    splitAux (c0 :: s0) acc (c0 :: s0 ++ t) =
      acc.reverse :: splitAux (c0 :: s0) [] t := by
  have hpre := isPrefixOf_append_self (c0 :: s0) t
  simp [splitAux, hpre, List.drop_left]

lemma bearer_data : "Bearer ".data = 'B' :: "earer ".data := rfl

lemma goSplit_bearer (t : String) (h : containsSubstr t "Bearer " = false) :
    goSplit ("Bearer " ++ t) "Bearer " = ["", t] := by
  unfold goSplit
  rw [String.data_append, bearer_data, splitAux_append_sep,
    splitAux_of_not_hasMatch _ _ _ h]
  simp

lemma goSplit_no_bearer (a : String) (h : containsSubstr a "Bearer " = false) :
    goSplit a "Bearer " = [a] := by
  unfold goSplit
  rw [splitAux_of_not_hasMatch _ _ _ h]
  simp

lemma bearer_append_ne_empty (t : String) : "Bearer " ++ t ≠ "" := by
  intro hx
  have := congrArg String.data hx
  rw [String.data_append, bearer_data] at this
  simp at this

lemma ctxValue_eq_none (ctx : Ctx) (key : CtxKey)
    (h : ∀ p ∈ ctx, p.1 ≠ key) : ctxValue ctx key = none := by
  induction ctx with
  | nil => rfl
  | cons p rest ih =>
    obtain ⟨k, v⟩ := p
    have hk : k ≠ key := h (k, v) (List.mem_cons_self _ _)
    simpa [ctxValue, hk] using ih (fun q hq => h q (List.mem_cons_of_mem _ hq))

lemma parseKeys_ok_of_all (parse : Bytes → Option PubKey)
    (pemkeys : List (String × Bytes))
    (hok : ∀ p ∈ pemkeys, (parse p.2).isSome) :
    parseKeys parse pemkeys = .ok (keysOf parse pemkeys) := by
  induction pemkeys with
  | nil => rfl
  | cons p rest ih =>
    obtain ⟨n, b⟩ := p
    obtain ⟨k, hk⟩ := Option.isSome_iff_exists.mp (hok (n, b) (List.mem_cons_self _ _))
    simp [parseKeys, hk, ih (fun q hq => hok q (List.mem_cons_of_mem _ hq)), keysOf]

lemma lookup_keysOf_mem (parse : Bytes → Option PubKey)
    (pemkeys : List (String × Bytes)) (kid : String) (pem : Bytes) (k : PubKey)
    (hnodup : (pemkeys.map Prod.fst).Nodup)
    (hmem : (kid, pem) ∈ pemkeys) (hk : parse pem = some k) :
    lookupAssoc (keysOf parse pemkeys) kid = some k := by
  induction pemkeys with
  | nil => cases hmem
  | cons p rest ih =>
    obtain ⟨n, b⟩ := p
    simp only [List.map_cons, List.nodup_cons] at hnodup
    rcases List.mem_cons.mp hmem with h | h
    · simp only [Prod.mk.injEq] at h
      obtain ⟨rfl, rfl⟩ := h
      simp [keysOf, lookupAssoc, hk]
    · have hkid : kid ∈ rest.map Prod.fst := List.mem_map.mpr ⟨(kid, pem), h, rfl⟩
      have hne : n ≠ kid := fun hEq => hnodup.1 (hEq ▸ hkid)
      simpa [keysOf, lookupAssoc, hne] using ih hnodup.2 h

lemma lookup_keysOf_not_mem (parse : Bytes → Option PubKey)
    (pemkeys : List (String × Bytes)) (kid : String)
    (hkid : kid ∉ pemkeys.map Prod.fst) :
    lookupAssoc (keysOf parse pemkeys) kid = none := by
  induction pemkeys with
  | nil => rfl
  | cons p rest ih =>
    obtain ⟨n, b⟩ := p
    simp only [List.map_cons, List.mem_cons, not_or] at hkid
    have hne : n ≠ kid := fun hEq => hkid.1 hEq.symm
    simpa [keysOf, lookupAssoc, hne] using ih hkid.2

lemma parseKeys_error_of_bad (parse : Bytes → Option PubKey)
    (pemkeys : List (String × Bytes)) (n0 : String) (b0 : Bytes)
    (hmem : (n0, b0) ∈ pemkeys) (hbad : parse b0 = none) :
    ∃ n b, (n, b) ∈ pemkeys ∧ parse b = none ∧
      parseKeys parse pemkeys = .error (pemErrMsg n) := by
  induction pemkeys with
  | nil => cases hmem
  | cons p rest ih =>
    obtain ⟨n, b⟩ := p
    rcases hpb : parse b with _ | k
    · exact ⟨n, b, List.mem_cons_self _ _, hpb, by simp [parseKeys, hpb]⟩
    · have hmem2 : (n0, b0) ∈ rest := by
        rcases List.mem_cons.mp hmem with h | h
        · simp only [Prod.mk.injEq] at h
          obtain ⟨rfl, rfl⟩ := h
          rw [hbad] at hpb
          cases hpb
        · exact h
      obtain ⟨m, c, hmc, hc, herr⟩ := ih hmem2
      exact ⟨m, c, List.mem_cons_of_mem _ hmc, hc, by simp [parseKeys, hpb, herr]⟩

/-! ## Claim theorems -/

/-- C1: for every token whose header declares a signing algorithm other than
the single configured algorithm PS256, `VerifyToken` rejects the token with an
algorithm-mismatch error, whatever its signature-validity predicate says (so
also when the signature is cryptographically valid under the declared
algorithm); in particular `"none"` and symmetric algorithms are never
accepted. -/
theorem C1_alg_policy_enforced (keys : List (String × PubKey)) (aud iss : String)
    (tf : Option Int) (parseTok : String → Option Token) (sysNow : Int)
    (s : String) (tok : Token)
    (hparse : parseTok s = some tok) (halg : tok.alg ≠ "PS256") :
    verifyToken parseTok sysNow
      ⟨keys, { defaultParseOptions aud iss with timeFunc := tf }⟩ s =
      .error .algorithmMismatch := by
  simp [verifyToken, hparse, verifyParsed, defaultParseOptions, halg]

/-- C1 witness: a token declaring algorithm `"none"` whose signature predicate
accepts every key and algorithm is still rejected with an algorithm-mismatch
error. -/
theorem C1_alg_policy_enforced_witness :
    verifyToken
      (fun _ => some
        { alg := "none", kid := some (.str "key1"),
          claims := { exp := some 1000, iat := some 0, iss := some "iss",
                      sub := none, aud := ["aud"] },
          sigValid := fun _ _ => true })
      0 ⟨[("key1", ⟨1⟩)], { defaultParseOptions "aud" "iss" with timeFunc := none }⟩
      "tok" = .error .algorithmMismatch :=
  C1_alg_policy_enforced [("key1", ⟨1⟩)] "aud" "iss" none _ 0 "tok" _ rfl (by decide)

/-- C2: for a key set whose entries are all well-formed (the external PEM
parser accepts each), `NewVerifier` succeeds, and on the resulting verifier
the key-resolution function returns, for every kid of the set, exactly the key
parsed from that kid's entry, and fails with a no-such-key error for every kid
outside the set. -/
theorem C2_initialize_lookup (parse : Bytes → Option PubKey) (aud iss : String)
    (tf : Option Int) (pemkeys : List (String × Bytes))
    (hnodup : (pemkeys.map Prod.fst).Nodup)
    (hok : ∀ p ∈ pemkeys, (parse p.2).isSome) :
    ∃ v : Verifier, newVerifier parse aud iss pemkeys tf = .ok v ∧
      (∀ kid pem k, (kid, pem) ∈ pemkeys → parse pem = some k →
        keyFunc v.keys (some (.str kid)) = .ok k) ∧
      (∀ kid, kid ∉ pemkeys.map Prod.fst →
        keyFunc v.keys (some (.str kid)) = .error (.noSuchKey kid)) := by
  refine ⟨⟨keysOf parse pemkeys,
    { defaultParseOptions aud iss with timeFunc := tf }⟩, ?_, ?_, ?_⟩
  · simp [newVerifier, parseKeys_ok_of_all parse pemkeys hok]
  · intro kid pem k hmem hk
    simp [keyFunc, lookup_keysOf_mem parse pemkeys kid pem k hnodup hmem hk]
  · intro kid hkid
    simp [keyFunc, lookup_keysOf_not_mem parse pemkeys kid hkid]

/-- C2 witness: a two-key set with a concrete parser; both kids resolve to
their parsed keys and an unknown kid fails. -/
theorem C2_initialize_lookup_witness :
    ∃ v : Verifier,
      newVerifier
        (fun b => if b = "pem1" then some ⟨1⟩ else if b = "pem2" then some ⟨2⟩ else none)
        "aud" "iss" [("key1", "pem1"), ("key2", "pem2")] none = .ok v ∧
      (∀ kid pem k, (kid, pem) ∈ [("key1", "pem1"), ("key2", "pem2")] →
        (fun b => if b = "pem1" then some ⟨1⟩ else if b = "pem2" then some ⟨2⟩ else none) pem
          = some k → keyFunc v.keys (some (.str kid)) = .ok k) ∧
      (∀ kid, kid ∉ [("key1", "pem1"), ("key2", "pem2")].map Prod.fst →
        keyFunc v.keys (some (.str kid)) = .error (.noSuchKey kid)) :=
  C2_initialize_lookup _ "aud" "iss" none _ (by decide) (by decide)

/-- C3: when some entry of the supplied key mapping is rejected by the
external PEM parser, both `NewVerifier` and `SetKeys` fail with the error
naming a kid whose entry is malformed, and `SetKeys` leaves the verifier state
— in particular the previously installed key set — unchanged. -/
theorem C3_rotation_all_or_nothing (parse : Bytes → Option PubKey)
    (v : Verifier) (aud iss : String) (tf : Option Int)
    (pemkeys : List (String × Bytes)) (n0 : String) (b0 : Bytes)
    (hmem : (n0, b0) ∈ pemkeys) (hbad : parse b0 = none) :
    ∃ n b, (n, b) ∈ pemkeys ∧ parse b = none ∧
      setKeys parse v pemkeys = (v, some (pemErrMsg n)) ∧
      newVerifier parse aud iss pemkeys tf = .error (pemErrMsg n) := by
  obtain ⟨n, b, hnb, hbn, herr⟩ := parseKeys_error_of_bad parse pemkeys n0 b0 hmem hbad
  exact ⟨n, b, hnb, hbn, by simp [setKeys, herr], by simp [newVerifier, herr]⟩

/-- C3 witness: the `junkKeys` fixture of the repository's tests — a single
entry `"badkey"` whose bytes the parser rejects — fails both construction and
rotation naming `"badkey"`, and rotation keeps the old key set. -/
theorem C3_rotation_all_or_nothing_witness :
    ∃ n b, (n, b) ∈ [("badkey", "foo")] ∧
      (fun b => if b = "pem1" then some (⟨1⟩ : PubKey) else none) b = none ∧
      setKeys (fun b => if b = "pem1" then some ⟨1⟩ else none)
        ⟨[("key1", ⟨1⟩)], defaultParseOptions "aud" "iss"⟩ [("badkey", "foo")] =
        (⟨[("key1", ⟨1⟩)], defaultParseOptions "aud" "iss"⟩, some (pemErrMsg n)) ∧
      newVerifier (fun b => if b = "pem1" then some ⟨1⟩ else none)
        "aud" "iss" [("badkey", "foo")] none = .error (pemErrMsg n) :=
  C3_rotation_all_or_nothing _ _ "aud" "iss" none _ "badkey" "foo" (by decide) (by decide)

/-- C4: the configured leeway is 5 minutes (300 seconds) and it governs the
expiration check: an otherwise-valid token whose expiration is 600 seconds
before "now" is rejected with a claims-invalid error, while one whose
expiration is 180 seconds before "now" verifies and returns its claims. -/
theorem C4_expiration_leeway (aud iss kid : String) (k : PubKey)
    (parseTok : String → Option Token) (s1 s2 : String) (now iat : Int)
    (sub : Option String) (hiat : iat ≤ now + 300)
    (h1 : parseTok s1 = some
      { alg := "PS256", kid := some (.str kid),
        claims := { exp := some (now - 600), iat := some iat, iss := some iss,
                    sub := sub, aud := [aud] },
        sigValid := fun _ _ => true })
    (h2 : parseTok s2 = some
      { alg := "PS256", kid := some (.str kid),
        claims := { exp := some (now - 180), iat := some iat, iss := some iss,
                    sub := sub, aud := [aud] },
        sigValid := fun _ _ => true }) :
    (defaultParseOptions aud iss).leeway = 5 * 60 ∧
    verifyToken parseTok now ⟨[(kid, k)], defaultParseOptions aud iss⟩ s1 =
      .error .claimsInvalid ∧
    verifyToken parseTok now ⟨[(kid, k)], defaultParseOptions aud iss⟩ s2 =
      .ok { exp := some (now - 180), iat := some iat, iss := some iss,
            sub := sub, aud := [aud] } := by
  refine ⟨rfl, ?_, ?_⟩
  · have hexp : (decide (now - (5 * 60 : Int) < now - 600)) = false := by
      rw [decide_eq_false_iff_not]
      omega
    simp [verifyToken, h1, verifyParsed, defaultParseOptions, keyFunc,
      lookupAssoc, validateClaims, hexp]
  · have hexp : (decide (now - (5 * 60 : Int) < now - 180)) = true := by
      rw [decide_eq_true_eq]
      omega
    simp [verifyToken, h2, verifyParsed, defaultParseOptions, keyFunc,
      lookupAssoc, validateClaims, hexp]
    omega

/-- C4 witness: at now = 1000, the token expired at 400 is rejected and the
token expired at 820 is accepted. -/
theorem C4_expiration_leeway_witness :
    (defaultParseOptions "aud" "iss").leeway = 5 * 60 ∧
    verifyToken
      (fun s => if s = "t1" then some
        { alg := "PS256", kid := some (.str "k"),
          claims := { exp := some (1000 - 600), iat := some 900, iss := some "iss",
                      sub := none, aud := ["aud"] },
          sigValid := fun _ _ => true }
      else some
        { alg := "PS256", kid := some (.str "k"),
          claims := { exp := some (1000 - 180), iat := some 900, iss := some "iss",
                      sub := none, aud := ["aud"] },
          sigValid := fun _ _ => true })
      1000 ⟨[("k", ⟨1⟩)], defaultParseOptions "aud" "iss"⟩ "t1" =
      .error .claimsInvalid ∧
    verifyToken
      (fun s => if s = "t1" then some
        { alg := "PS256", kid := some (.str "k"),
          claims := { exp := some (1000 - 600), iat := some 900, iss := some "iss",
                      sub := none, aud := ["aud"] },
          sigValid := fun _ _ => true }
      else some
        { alg := "PS256", kid := some (.str "k"),
          claims := { exp := some (1000 - 180), iat := some 900, iss := some "iss",
                      sub := none, aud := ["aud"] },
          sigValid := fun _ _ => true })
      1000 ⟨[("k", ⟨1⟩)], defaultParseOptions "aud" "iss"⟩ "t2" =
      .ok { exp := some (1000 - 180), iat := some 900, iss := some "iss",
            sub := none, aud := ["aud"] } :=
  C4_expiration_leeway "aud" "iss" "k" ⟨1⟩ _ "t1" "t2" 1000 900 none
    (by decide) rfl rfl

/-- C5: a token that is otherwise valid — correct algorithm, resolvable key,
valid signature, live expiration, correct issuer and audience — but whose
payload omits the issued-at claim is rejected with a claims-invalid error. -/
theorem C5_missing_iat_rejected (aud iss kid : String) (k : PubKey)
    (parseTok : String → Option Token) (s : String) (now e : Int)
    (sub : Option String) (hexp : now - 300 < e)
    (h : parseTok s = some
      { alg := "PS256", kid := some (.str kid),
        claims := { exp := some e, iat := none, iss := some iss,
                    sub := sub, aud := [aud] },
        sigValid := fun _ _ => true }) :
    verifyToken parseTok now ⟨[(kid, k)], defaultParseOptions aud iss⟩ s =
      .error .claimsInvalid := by
  simp [verifyToken, h, verifyParsed, defaultParseOptions, keyFunc, lookupAssoc,
    validateClaims]

/-- C5 witness: at now = 1000 a token expiring at 2000 with every other check
passing but no issued-at claim is rejected. -/
theorem C5_missing_iat_rejected_witness :
    verifyToken
      (fun _ => some
        { alg := "PS256", kid := some (.str "k"),
          claims := { exp := some 2000, iat := none, iss := some "iss",
                      sub := none, aud := ["aud"] },
          sigValid := fun _ _ => true })
      1000 ⟨[("k", ⟨1⟩)], defaultParseOptions "aud" "iss"⟩ "tok" =
      .error .claimsInvalid :=
  C5_missing_iat_rejected "aud" "iss" "k" ⟨1⟩ _ "tok" 1000 2000 none
    (by decide) rfl

/-- C6: key resolution on a header with no `kid` entry fails with the
missing-kid error; on a header whose `kid` entry is not a string it fails with
the cannot-convert error; the two errors are distinct, and both cases return
a defined error value (no panic). -/
theorem C6_keyfunc_kid_errors (keys : List (String × PubKey)) (hv : HVal)
    (hns : ∀ s, hv ≠ HVal.str s) :
    keyFunc keys none = .error .missingKid ∧
    keyFunc keys (some hv) = .error .kidNotString ∧
    VError.missingKid ≠ VError.kidNotString := by
  refine ⟨rfl, ?_, by decide⟩
  cases hv with
  | str s => exact absurd rfl (hns s)
  | num n => rfl
  | boolean b => rfl

/-- C6 witness: the test fixture — a header with `kid` set to the number 5 —
and a header with no `kid` at all, against a populated key map. -/
theorem C6_keyfunc_kid_errors_witness :
    keyFunc [("key1", ⟨1⟩), ("key2", ⟨2⟩)] none = .error .missingKid ∧
    keyFunc [("key1", ⟨1⟩), ("key2", ⟨2⟩)] (some (.num 5)) = .error .kidNotString ∧
    VError.missingKid ≠ VError.kidNotString :=
  C6_keyfunc_kid_errors [("key1", ⟨1⟩), ("key2", ⟨2⟩)] (.num 5)
    (fun s h => HVal.noConfusion h)

/-- C7: token extraction reads `Authorization` first — whatever the secondary
header holds — and only when `Authorization` is absent reads `X-OpsMx-Auth`;
a populated value of the form `"Bearer " ++ t` (with no further occurrence of
the scheme prefix inside `t`) yields exactly `t`; with neither header present
the extracted token is the empty string. -/
theorem C7_token_extraction (t : String) (x : Option String)
    (ctx ctx2 ctx3 : Ctx) (h : containsSubstr t "Bearer " = false) :
    tokenFromHeaders ⟨some ("Bearer " ++ t), x, ctx⟩ = some t ∧
    tokenFromHeaders ⟨none, some ("Bearer " ++ t), ctx2⟩ = some t ∧
    tokenFromHeaders ⟨none, none, ctx3⟩ = some "" := by
  refine ⟨?_, ?_, rfl⟩
  · simp [tokenFromHeaders, headerGet, bearer_append_ne_empty t, goSplit_bearer t h]
  · simp [tokenFromHeaders, headerGet, bearer_append_ne_empty t, goSplit_bearer t h]

/-- C7 witness: the token `"abc.def"`, with the secondary header also
populated in the first scenario. -/
theorem C7_token_extraction_witness :
    tokenFromHeaders ⟨some ("Bearer " ++ "abc.def"), some "Bearer zzz", []⟩ =
      some "abc.def" ∧
    tokenFromHeaders ⟨none, some ("Bearer " ++ "abc.def"), []⟩ = some "abc.def" ∧
    tokenFromHeaders ⟨none, none, []⟩ = some "" :=
  C7_token_extraction "abc.def" (some "Bearer zzz") [] [] [] (by decide)

/-- C8: whenever the extracted token string fails verification, the middleware
produces the rejection outcome with status 401 and the fixed body
`"Unauthorized"` — a constant independent of which error kind occurred — and
in particular does not forward any request to the downstream handler, so no
claims or token are attached to any context. -/
theorem C8_middleware_unauthorized (parseTok : String → Option Token)
    (sysNow : Int) (v : Verifier) (r : Request) (s : String) (e : VError)
    (hs : tokenFromHeaders r = some s)
    (he : verifyToken parseTok sysNow v s = .error e) :
    middlewareFunc parseTok sysNow v r = .reject { status := 401, body := "Unauthorized" } := by
  simp [middlewareFunc, hs, he]

/-- C8 witness: a request with neither header, against a collaborator that
decodes no string — verification fails with a malformed-token error and the
middleware answers 401 `"Unauthorized"`. -/
theorem C8_middleware_unauthorized_witness :
    middlewareFunc (fun _ => none) 0 ⟨[], defaultParseOptions "aud" "iss"⟩
      ⟨none, none, []⟩ = .reject { status := 401, body := "Unauthorized" } :=
  C8_middleware_unauthorized (fun _ => none) 0 ⟨[], defaultParseOptions "aud" "iss"⟩
    ⟨none, none, []⟩ "" .malformedToken rfl rfl

/-- C9: for every context, claims value and token string, the claims accessor
on `contextWithToken ctx c t` returns `c` and the token accessor returns `t`,
each under its own key; and on any context to which neither private key was
ever attached, both accessors return the absent flag (modelled by `none`) —
they are total lookups and cannot throw. -/
theorem C9_context_roundtrip (ctx : Ctx) (c : Claims) (t : String) (ctx2 : Ctx)
    (h : ∀ p ∈ ctx2, p.1 ≠ CtxKey.ssdContextKey ∧ p.1 ≠ CtxKey.ssdTokenContextKey) :
    SSDClaimsFromContext (contextWithToken ctx c t) = some c ∧
    SSDTokenFromContext (contextWithToken ctx c t) = some t ∧
    SSDClaimsFromContext ctx2 = none ∧
    SSDTokenFromContext ctx2 = none := by
  refine ⟨?_, ?_, ?_, ?_⟩
  · simp [SSDClaimsFromContext, contextWithToken, withValue, ctxValue]
  · simp [SSDTokenFromContext, contextWithToken, withValue, ctxValue]
  · rw [SSDClaimsFromContext, ctxValue_eq_none ctx2 _ (fun p hp => (h p hp).1)]
  · rw [SSDTokenFromContext, ctxValue_eq_none ctx2 _ (fun p hp => (h p hp).2)]

/-- C9 witness: a concrete claims value and token round-trip through a
context, and a context holding only a downstream consumer's key yields the
absent flag from both accessors. -/
theorem C9_context_roundtrip_witness :
    SSDClaimsFromContext (contextWithToken []
      { exp := some 10, iat := some 2, iss := some "iss", sub := some "u", aud := ["aud"] }
      "tok") = some
      { exp := some 10, iat := some 2, iss := some "iss", sub := some "u", aud := ["aud"] } ∧
    SSDTokenFromContext (contextWithToken []
      { exp := some 10, iat := some 2, iss := some "iss", sub := some "u", aud := ["aud"] }
      "tok") = some "tok" ∧
    SSDClaimsFromContext [(.external "userKey", .otherVal 7)] = none ∧
    SSDTokenFromContext [(.external "userKey", .otherVal 7)] = none :=
  C9_context_roundtrip []
    { exp := some 10, iat := some 2, iss := some "iss", sub := some "u", aud := ["aud"] }
    "tok" [(.external "userKey", .otherVal 7)] (by decide)

/-- C10: a populated header value that does not contain the substring
`"Bearer "` drives `tokenFromHeaders` to the index access `splitToken[1]` on a
one-element split result: the access is out of bounds and the function has no
defined result (`none` in this total embedding), in whichever of the two
headers the value arrived. -/
theorem C10_no_bearer_out_of_bounds (a : String) (x : Option String)
    (ctx ctx2 : Ctx) (ha : a ≠ "") (h : containsSubstr a "Bearer " = false) :
    tokenFromHeaders ⟨some a, x, ctx⟩ = none ∧
    tokenFromHeaders ⟨none, some a, ctx2⟩ = none := by
  constructor
  · simp [tokenFromHeaders, headerGet, ha, goSplit_no_bearer a h]
  · simp [tokenFromHeaders, headerGet, ha, goSplit_no_bearer a h]

/-- C10 witness: the out-of-bounds branch is reached at the concrete header
value `"Token abc"`. -/
theorem C10_no_bearer_out_of_bounds_witness :
    tokenFromHeaders ⟨some "Token abc", none, []⟩ = none ∧
    tokenFromHeaders ⟨none, some "Token abc", []⟩ = none :=
  C10_no_bearer_out_of_bounds "Token abc" none [] [] (by decide) (by decide)

end SsdJwtAuth
